import Mathlib

/-!
Shallow embedding of the `tonal` music library (tonal.c / tonal.h /
tonal_priv.h).

C `struct`s become Lean structures over `Int`; C functions that write
through an output pointer become Lean functions that take the prior
contents of the output object and return the pair
`(status, final contents of the output object)`, where the status
`true` models `TONAL_OK` and `false` models `TONAL_FAIL`.
`assert` has no effect on the value a C function returns, so it is not
part of the embedded functions; where an assert condition matters it is
stated as a theorem instead.  All arithmetic is on `Int`, matching the
mathematical reading of C `int` on the library's domain; `Int.tdiv` is
C's truncating `/`.
-/

/-- C `INT_MIN`, used by the source as an error sentinel. -/
def INT_MIN : Int := -2147483648

/-- `struct tonal_class` (tonal_priv.h). -/
structure tonal_class where
  diatonic_point : Int
  alteration : Int
deriving DecidableEq, Repr

/-- `struct tonal_element` (tonal_priv.h). -/
structure tonal_element where
  diatonic_point : Int
  alteration : Int
  octave : Int
deriving DecidableEq, Repr

/-- `struct tonal_pitch_class` (tonal.h). -/
structure tonal_pitch_class where
  diatonic_pitch : Int
  pitch_alteration : Int
deriving DecidableEq, Repr

/-- `struct tonal_pitch` (tonal.h). -/
structure tonal_pitch where
  diatonic_pitch : Int
  pitch_alteration : Int
  octave : Int
deriving DecidableEq, Repr

/-- `struct tonal_interval_class` (tonal.h). -/
structure tonal_interval_class where
  diatonic_interval : Int
  interval_alteration : Int
deriving DecidableEq, Repr

/-- `struct tonal_interval` (tonal.h). -/
structure tonal_interval where
  diatonic_interval : Int
  interval_alteration : Int
  octave : Int
  interval_direction : Int
deriving DecidableEq, Repr

/-- Diatonic Pitch enum values (tonal.h). -/
def DP_C : Int := 0

def DP_B : Int := 6

/-- Pitch Alteration enum values (tonal.h): bb, b, natural, #, ##. -/
def PA_bb : Int := 0

def PA_ : Int := 2

def PA_ss : Int := 4

/-- Diatonic Interval enum values (tonal.h). -/
def DI_PRIME : Int := 0

def DI_SEVENTH : Int := 6

/-- Interval Alteration enum values (tonal.h). -/
def IA_DIMINISHED : Int := 0

def IA_MINOR : Int := 1

def IA_MAJOR : Int := 2

def IA_PERFECT : Int := 3

def IA_AUGMENTED : Int := 4

/-- Interval Direction enum values (tonal.h). -/
def ID_UP : Int := 0

def ID_DOWN : Int := 1

/-- `TIC_TO_TC_TABLE` (tonal.c): alteration degree per
(diatonic interval, interval alteration); the C source marks illegal
combinations with the character `'x'`, i.e. the int 120. -/
def TIC_TO_TC_TABLE (di ia : Int) : Int :=
  if di = 0 then
    if ia = 0 then -1 else if ia = 1 then 120 else if ia = 2 then 120
    else if ia = 3 then 0 else 1
  else if di = 1 ∨ di = 2 ∨ di = 5 ∨ di = 6 then
    if ia = 0 then -2 else if ia = 1 then -1 else if ia = 2 then 0
    else if ia = 3 then 120 else 1
  else
    if ia = 0 then -1 else if ia = 1 then 120 else if ia = 2 then 120
    else if ia = 3 then 0 else 1

/-- `validate_diatonic_point` (tonal.c). -/
def validate_diatonic_point (dt : Int) : Bool :=
  decide (0 ≤ dt ∧ dt ≤ 6)

/-- `validate_alteration` (tonal.c). -/
def validate_alteration (a : Int) : Bool :=
  decide (-2 ≤ a ∧ a ≤ 2)

/-- `validate_tc` (tonal.c); the NULL check does not arise for values. -/
def validate_tc (tc : tonal_class) : Bool :=
  validate_diatonic_point tc.diatonic_point && validate_alteration tc.alteration

/-- The C cast `(const struct tonal_class *) te`: a tonal element viewed
through its first two fields. -/
def te_class (te : tonal_element) : tonal_class :=
  ⟨te.diatonic_point, te.alteration⟩

/-- `validate_te` (tonal.c). -/
def validate_te (te : tonal_element) : Bool :=
  validate_tc (te_class te)

/-- `validate_diatonic_pitch` (tonal.c): `DP_C <= dp <= DP_B`. -/
def validate_diatonic_pitch (dp : Int) : Bool :=
  decide (DP_C ≤ dp ∧ dp ≤ DP_B)

/-- `validate_pitch_alteration` (tonal.c): `PA_bb <= pa <= PA_ss`. -/
def validate_pitch_alteration (pa : Int) : Bool :=
  decide (PA_bb ≤ pa ∧ pa ≤ PA_ss)

/-- The C cast `(const struct tonal_pitch_class *) tp`. -/
def tp_class (tp : tonal_pitch) : tonal_pitch_class :=
  ⟨tp.diatonic_pitch, tp.pitch_alteration⟩

/-- `validate_tpc` (tonal.c). -/
def validate_tpc (tpc : tonal_pitch_class) : Bool :=
  validate_diatonic_pitch tpc.diatonic_pitch &&
    validate_pitch_alteration tpc.pitch_alteration

/-- `validate_tp` (tonal.c): the tonal pitch octave must be nonnegative. -/
def validate_tp (tp : tonal_pitch) : Bool :=
  if tp.octave < 0 then false else validate_tpc (tp_class tp)

/-- `validate_diatonic_interval` (tonal.c). -/
def validate_diatonic_interval (di : Int) : Bool :=
  decide (DI_PRIME ≤ di ∧ di ≤ DI_SEVENTH)

/-- `validate_interval_alteration` (tonal.c). -/
def validate_interval_alteration (ia : Int) : Bool :=
  decide (IA_DIMINISHED ≤ ia ∧ ia ≤ IA_AUGMENTED)

/-- The C cast `(const struct tonal_interval_class *) ti`. -/
def ti_class (ti : tonal_interval) : tonal_interval_class :=
  ⟨ti.diatonic_interval, ti.interval_alteration⟩

/-- `validate_tic` (tonal.c): field ranges plus the legality table. -/
def validate_tic (tic : tonal_interval_class) : Bool :=
  if ¬ validate_diatonic_interval tic.diatonic_interval then false
  else if ¬ validate_interval_alteration tic.interval_alteration then false
  else if TIC_TO_TC_TABLE tic.diatonic_interval tic.interval_alteration = 120
    then false
  else true

/-- `validate_interval_octave` (tonal.c). -/
def validate_interval_octave (interval_octave : Int) : Bool :=
  decide (0 ≤ interval_octave)

/-- `validate_interval_direction` (tonal.c). -/
def validate_interval_direction (interval_direction : Int) : Bool :=
  decide (interval_direction = ID_UP ∨ interval_direction = ID_DOWN)

/-- `validate_ti` (tonal.c).  The source assigns
`ret = validate_tic(...)` and then immediately overwrites `ret` with the
octave check, so the interval-class legality result is discarded; the
embedding reproduces that faithfully. -/
def validate_ti (ti : tonal_interval) : Bool :=
  if ¬ validate_interval_octave ti.octave then false
  else if ¬ validate_interval_direction ti.interval_direction then false
  else if ti.octave = 0 ∧ ti.diatonic_interval = DI_PRIME ∧
      ti.interval_alteration = IA_DIMINISHED then false
  else validate_interval_direction ti.interval_direction

/-- `dt_get_mpc_value` (tonal.c): `DT_TO_MPC_TABLE` lookup with range
guard. -/
def dt_get_mpc_value (dt : Int) : Int :=
  if dt < 0 ∨ 7 ≤ dt then INT_MIN
  else if dt = 0 then 0 else if dt = 1 then 2 else if dt = 2 then 4
  else if dt = 3 then 5 else if dt = 4 then 7 else if dt = 5 then 9
  else 11

/-- `tc_get_mpc_value` (tonal.c). -/
def tc_get_mpc_value (tc : tonal_class) : Int :=
  if validate_tc tc = false then INT_MIN
  else dt_get_mpc_value tc.diatonic_point + tc.alteration

/-- `te_get_diatonic_value` (tonal.c). -/
def te_get_diatonic_value (te : tonal_element) : Int :=
  if validate_te te = false then INT_MIN
  else 7 * te.octave + te.diatonic_point

/-- `te_get_chromatic_value` (tonal.c). -/
def te_get_chromatic_value (te : tonal_element) : Int :=
  if validate_te te = false then INT_MIN
  else 12 * te.octave + tc_get_mpc_value (te_class te)

/-- The octave candidate computed at the top of `te_from_dv_cv`
(tonal.c): C truncating division, with the `(dv - 6)` adjustment for
nonpositive `dv`. -/
def te_octave_of_dv (dv : Int) : Int :=
  if dv ≤ 0 then Int.tdiv (dv - 6) 7 else Int.tdiv dv 7

/-- `te_from_dv_cv` (tonal.c), the canonical reconstruction of an
element from a (diatonic value, chromatic value) pair.  The source
writes the provisional triple `{dv, 0, 0}` into the output object
before the alteration check, so an alteration-range failure leaves that
provisional value in the output. -/
def te_from_dv_cv (te : tonal_element) (dv cv : Int) : Bool × tonal_element :=
  let o := te_octave_of_dv dv
  let dv2 := dv - o * 7
  let cv2 := cv - o * 12
  if cv2 < -2 ∨ 13 < cv2 then (false, te)
  else
    let prov : tonal_element := ⟨dv2, 0, 0⟩
    let a := cv2 - te_get_chromatic_value prov
    if validate_alteration a = false then (false, prov)
    else (true, ⟨dv2, a, o⟩)

/-- `te_inv` (tonal.c): in-place inversion of a tonal element. -/
def te_inv (te : tonal_element) : Bool × tonal_element :=
  if validate_te te = false then (false, te)
  else te_from_dv_cv te (-(te_get_diatonic_value te))
    (-(te_get_chromatic_value te))

/-- `te_add` (tonal.c): `te2 := te0 + te1`. -/
def te_add (te0 te1 te2 : tonal_element) : Bool × tonal_element :=
  if validate_te te0 = false then (false, te2)
  else if validate_te te1 = false then (false, te2)
  else te_from_dv_cv te2
    (te_get_diatonic_value te0 + te_get_diatonic_value te1)
    (te_get_chromatic_value te0 + te_get_chromatic_value te1)

/-- `te_sub` (tonal.c): copies `te1`, inverts the copy and adds it to
`te0`. -/
def te_sub (te0 te1 te2 : tonal_element) : Bool × tonal_element :=
  if validate_te te0 = false then (false, te2)
  else if validate_te te1 = false then (false, te2)
  else
    let r := te_inv te1
    if r.1 = false then (false, te2)
    else te_add te0 r.2 te2

/-- `tpc_to_tc` (tonal.c). -/
def tpc_to_tc (tpc : tonal_pitch_class) (tc : tonal_class) :
    Bool × tonal_class :=
  if validate_tpc tpc = false then (false, tc)
  else (true, ⟨tpc.diatonic_pitch - DP_C, tpc.pitch_alteration - PA_⟩)

/-- `tc_to_tpc` (tonal.c). -/
def tc_to_tpc (tc : tonal_class) (tpc : tonal_pitch_class) :
    Bool × tonal_pitch_class :=
  if validate_tc tc = false then (false, tpc)
  else (true, ⟨tc.diatonic_point + DP_C, tc.alteration + PA_⟩)

/-- `tic_to_tc` (tonal.c). -/
def tic_to_tc (tic : tonal_interval_class) (tc : tonal_class) :
    Bool × tonal_class :=
  if validate_tic tic = false then (false, tc)
  else (true, ⟨tic.diatonic_interval - DI_PRIME,
    TIC_TO_TC_TABLE tic.diatonic_interval tic.interval_alteration⟩)

/-- `tc_to_tic` (tonal.c).  The source stores `tic_di` into the output
before the switch on the alteration, so a failing switch leaves the
output with an updated `diatonic_interval` field. -/
def tc_to_tic (tc : tonal_class) (tic : tonal_interval_class) :
    Bool × tonal_interval_class :=
  if validate_tc tc = false then (false, tic)
  else
    let tic_di := tc.diatonic_point + DI_PRIME
    let written : tonal_interval_class := ⟨tic_di, tic.interval_alteration⟩
    if tic_di = 0 ∨ tic_di = 3 ∨ tic_di = 4 then
      if tc.alteration = -1 then (true, ⟨tic_di, IA_DIMINISHED⟩)
      else if tc.alteration = 0 then (true, ⟨tic_di, IA_PERFECT⟩)
      else if tc.alteration = 1 then (true, ⟨tic_di, IA_AUGMENTED⟩)
      else (false, written)
    else
      if tc.alteration = -2 then (true, ⟨tic_di, IA_DIMINISHED⟩)
      else if tc.alteration = -1 then (true, ⟨tic_di, IA_MINOR⟩)
      else if tc.alteration = 0 then (true, ⟨tic_di, IA_MAJOR⟩)
      else if tc.alteration = 1 then (true, ⟨tic_di, IA_AUGMENTED⟩)
      else (false, written)

/-- `tp_to_te` (tonal.c). -/
def tp_to_te (tp : tonal_pitch) (te : tonal_element) : Bool × tonal_element :=
  if validate_tp tp = false then (false, te)
  else
    let r := tpc_to_tc (tp_class tp) (te_class te)
    if r.1 = false then (false, te)
    else (true, ⟨r.2.diatonic_point, r.2.alteration, tp.octave⟩)

/-- `te_to_tp` (tonal.c).  There is no octave sign check here: the
source only asserts `validate_tp` on the result after writing it. -/
def te_to_tp (te : tonal_element) (tp : tonal_pitch) : Bool × tonal_pitch :=
  if validate_te te = false then (false, tp)
  else
    let r := tc_to_tpc (te_class te) (tp_class tp)
    if r.1 = false then (false, tp)
    else (true, ⟨r.2.diatonic_pitch, r.2.pitch_alteration, te.octave⟩)

/-- `ti_to_te` (tonal.c).  On the Down branch the source asserts the
success of `te_inv` but returns `TONAL_OK` unconditionally. -/
def ti_to_te (ti : tonal_interval) (te : tonal_element) :
    Bool × tonal_element :=
  if validate_ti ti = false then (false, te)
  else
    let r := tic_to_tc (ti_class ti) (te_class te)
    if r.1 = false then (false, te)
    else
      let te1 : tonal_element := ⟨r.2.diatonic_point, r.2.alteration, ti.octave⟩
      if ti.interval_direction = ID_DOWN then (true, (te_inv te1).2)
      else (true, te1)

/-- `te_to_ti` (tonal.c). -/
def te_to_ti (te : tonal_element) (ti : tonal_interval) :
    Bool × tonal_interval :=
  if validate_te te = false then (false, ti)
  else if 0 ≤ te.octave then
    let r := tc_to_tic (te_class te) (ti_class ti)
    if r.1 = false then
      (false, ⟨r.2.diatonic_interval, r.2.interval_alteration, ti.octave,
        ti.interval_direction⟩)
    else (true, ⟨r.2.diatonic_interval, r.2.interval_alteration, te.octave,
      ID_UP⟩)
  else
    let r0 := te_inv ⟨te.diatonic_point, te.alteration, te.octave⟩
    if r0.1 = false then (false, ti)
    else
      let r := tc_to_tic (te_class r0.2) (ti_class ti)
      if r.1 = false then
        (false, ⟨r.2.diatonic_interval, r.2.interval_alteration, ti.octave,
          ti.interval_direction⟩)
      else (true, ⟨r.2.diatonic_interval, r.2.interval_alteration,
        r0.2.octave, ID_DOWN⟩)

/-- `tic_set` (tonal.c). -/
def tic_set (tic : tonal_interval_class) (diatonic_interval : Int)
    (interval_alteration : Int) : Bool × tonal_interval_class :=
  if validate_diatonic_interval diatonic_interval = false then (false, tic)
  else if validate_interval_alteration interval_alteration = false then
    (false, tic)
  else if TIC_TO_TC_TABLE diatonic_interval interval_alteration = 120 then
    (false, tic)
  else (true, ⟨diatonic_interval, interval_alteration⟩)

/-- `ti_set` (tonal.c): writes all fields, then returns the result of
`validate_ti` on the written interval. -/
def ti_set (ti : tonal_interval) (diatonic_interval interval_alteration : Int)
    (octave interval_direction : Int) : Bool × tonal_interval :=
  let r := tic_set (ti_class ti) diatonic_interval interval_alteration
  if r.1 = false then (false, ti)
  else
    let ti2 : tonal_interval := ⟨r.2.diatonic_interval,
      r.2.interval_alteration, octave, interval_direction⟩
    (validate_ti ti2, ti2)

/-- `tp_add` (tonal.c).  The C locals are uninitialized stack structs;
their initial contents are never observable, so the embedding seeds
them with zeros. -/
def tp_add (tp : tonal_pitch) (ti : tonal_interval) (tp_sum : tonal_pitch) :
    Bool × tonal_pitch :=
  let r0 := tp_to_te tp ⟨0, 0, 0⟩
  if r0.1 = false then (false, tp_sum)
  else
    let r1 := ti_to_te ti ⟨0, 0, 0⟩
    if r1.1 = false then (false, tp_sum)
    else
      let r2 := te_add r0.2 r1.2 ⟨0, 0, 0⟩
      if r2.1 = false then (false, tp_sum)
      else te_to_tp r2.2 tp_sum

/-- `ti_add` (tonal.c). -/
def ti_add (ti0 ti1 : tonal_interval) (ti_sum : tonal_interval) :
    Bool × tonal_interval :=
  let r0 := ti_to_te ti0 ⟨0, 0, 0⟩
  if r0.1 = false then (false, ti_sum)
  else
    let r1 := ti_to_te ti1 ⟨0, 0, 0⟩
    if r1.1 = false then (false, ti_sum)
    else
      let r2 := te_add r0.2 r1.2 ⟨0, 0, 0⟩
      if r2.1 = false then (false, ti_sum)
      else te_to_ti r2.2 ti_sum

/-- `tp_sub` (tonal.c). -/
def tp_sub (tp0 tp1 : tonal_pitch) (ti_diff : tonal_interval) :
    Bool × tonal_interval :=
  let r0 := tp_to_te tp0 ⟨0, 0, 0⟩
  if r0.1 = false then (false, ti_diff)
  else
    let r1 := tp_to_te tp1 ⟨0, 0, 0⟩
    if r1.1 = false then (false, ti_diff)
    else
      let r2 := te_sub r0.2 r1.2 ⟨0, 0, 0⟩
      if r2.1 = false then (false, ti_diff)
      else te_to_ti r2.2 ti_diff

/-- `ti_sub` (tonal.c). -/
def ti_sub (ti0 ti1 : tonal_interval) (ti_diff : tonal_interval) :
    Bool × tonal_interval :=
  let r0 := ti_to_te ti0 ⟨0, 0, 0⟩
  if r0.1 = false then (false, ti_diff)
  else
    let r1 := ti_to_te ti1 ⟨0, 0, 0⟩
    if r1.1 = false then (false, ti_diff)
    else
      let r2 := te_sub r0.2 r1.2 ⟨0, 0, 0⟩
      if r2.1 = false then (false, ti_diff)
      else te_to_ti r2.2 ti_diff

/-! ## Basic facts about the embedded validators and projections -/

/-- The octave candidate in `te_from_dv_cv` is exactly floor division of
the diatonic value by 7: the `(dv - 6)` adjustment turns C's truncating
division into floor division on the nonpositive side. -/
theorem te_octave_of_dv_eq (dv : Int) : te_octave_of_dv dv = dv / 7 := by
  unfold te_octave_of_dv
  split
  · next h =>
    have h6 : dv - 6 = -(6 - dv) := by ring
    rw [h6, Int.neg_tdiv, Int.tdiv_eq_ediv (by omega) (by omega)]
    omega
  · next h =>
    exact Int.tdiv_eq_ediv (by omega) (by omega)

/-- Element validity, spelled out. -/
theorem validate_te_true (te : tonal_element) :
    validate_te te = true ↔
      0 ≤ te.diatonic_point ∧ te.diatonic_point ≤ 6 ∧
      -2 ≤ te.alteration ∧ te.alteration ≤ 2 := by
  simp [validate_te, validate_tc, te_class, validate_diatonic_point,
    validate_alteration, and_assoc]

/-- The diatonic-point to music-pitch-class table stays within one
octave. -/
theorem dt_get_mpc_value_bounds (p : Int) (h0 : 0 ≤ p) (h6 : p ≤ 6) :
    0 ≤ dt_get_mpc_value p ∧ dt_get_mpc_value p ≤ 11 := by
  interval_cases p <;> decide

/-- `te_get_diatonic_value` on a valid element. -/
theorem te_get_diatonic_value_eq (te : tonal_element)
    (h : validate_te te = true) :
    te_get_diatonic_value te = 7 * te.octave + te.diatonic_point := by
  simp [te_get_diatonic_value, h]

/-- `te_get_chromatic_value` on a valid element. -/
theorem te_get_chromatic_value_eq (te : tonal_element)
    (h : validate_te te = true) :
    te_get_chromatic_value te =
      12 * te.octave + dt_get_mpc_value te.diatonic_point + te.alteration := by
  have h2 : validate_tc ⟨te.diatonic_point, te.alteration⟩ = true := h
  simp [te_get_chromatic_value, h, tc_get_mpc_value, te_class, h2]
  ring

/-- A provisional element `{p, 0, 0}` with `p` in range is valid. -/
theorem validate_te_prov (p : Int) (h0 : 0 ≤ p) (h6 : p ≤ 6) :
    validate_te ⟨p, 0, 0⟩ = true := by
  rw [validate_te_true]
  refine ⟨h0, h6, ?_, ?_⟩ <;> simp only [] <;> omega

/-- Chromatic value of a provisional element is its table entry. -/
theorem te_get_chromatic_value_prov (p : Int) (h0 : 0 ≤ p) (h6 : p ≤ 6) :
    te_get_chromatic_value ⟨p, 0, 0⟩ = dt_get_mpc_value p := by
  rw [te_get_chromatic_value_eq _ (validate_te_prov p h0 h6)]
  ring

/-- If `te_from_dv_cv` reports success then its output is a valid
element whose projections reproduce the requested pair exactly. -/
theorem te_from_dv_cv_ok (prior : tonal_element) (dv cv : Int)
    (h : (te_from_dv_cv prior dv cv).1 = true) :
    validate_te (te_from_dv_cv prior dv cv).2 = true ∧
    te_get_diatonic_value (te_from_dv_cv prior dv cv).2 = dv ∧
    te_get_chromatic_value (te_from_dv_cv prior dv cv).2 = cv := by
  have hdv2a : 0 ≤ dv - dv / 7 * 7 := by omega
  have hdv2b : dv - dv / 7 * 7 ≤ 6 := by omega
  have hchrom := te_get_chromatic_value_prov (dv - dv / 7 * 7) hdv2a hdv2b
  simp only [te_from_dv_cv, te_octave_of_dv_eq, hchrom] at h ⊢
  split at h
  · simp at h
  · next h1 =>
    split at h
    · simp at h
    · next h2 =>
      rw [if_neg h1, if_neg h2]
      simp only [Bool.not_eq_false, validate_alteration, decide_eq_true_eq]
        at h2
      have hval : validate_te
          ⟨dv - dv / 7 * 7,
            cv - dv / 7 * 12 - dt_get_mpc_value (dv - dv / 7 * 7),
            dv / 7⟩ = true := by
        rw [validate_te_true]
        exact ⟨hdv2a, hdv2b, h2.1, h2.2⟩
      refine ⟨hval, ?_, ?_⟩
      · rw [te_get_diatonic_value_eq _ hval]
        simp only []
        omega
      · rw [te_get_chromatic_value_eq _ hval]
        simp only []
        omega

/-- `te_from_dv_cv` evaluated on any representable pair: if
`(dv, cv)` are the projections of the element `{p, a, ω}` then the
reconstruction succeeds and returns exactly that element. -/
theorem te_from_dv_cv_eval (prior : tonal_element) (dv cv p a ω : Int)
    (hdv : dv = 7 * ω + p) (hp0 : 0 ≤ p) (hp6 : p ≤ 6)
    (hcv : cv = 12 * ω + dt_get_mpc_value p + a)
    (ha0 : -2 ≤ a) (ha2 : a ≤ 2) :
    te_from_dv_cv prior dv cv = (true, ⟨p, a, ω⟩) := by
  have hmpc := dt_get_mpc_value_bounds p hp0 hp6
  have hdiv : dv / 7 = ω := by omega
  have hchrom := te_get_chromatic_value_prov p hp0 hp6
  simp only [te_from_dv_cv, te_octave_of_dv_eq, hdiv]
  have hdv2 : dv - ω * 7 = p := by omega
  have hcv2 : cv - ω * 12 = dt_get_mpc_value p + a := by omega
  rw [hdv2, hcv2, hchrom]
  rw [if_neg (by omega)]
  have ha : dt_get_mpc_value p + a - dt_get_mpc_value p = a := by ring
  rw [ha]
  rw [if_neg (by simp [validate_alteration]; omega)]

/-! ## Claim theorems -/

/-- C1: for valid elements `te0`, `te1`, a successful `te_add` produces
a valid element whose alteration lies in {-2..2} and whose diatonic and
chromatic projections reproduce the two scalar sums exactly. -/
theorem te_add_sound (te0 te1 out : tonal_element)
    (h0 : validate_te te0 = true) (h1 : validate_te te1 = true)
    (hs : (te_add te0 te1 out).1 = true) :
    validate_te (te_add te0 te1 out).2 = true ∧
    -2 ≤ (te_add te0 te1 out).2.alteration ∧
    (te_add te0 te1 out).2.alteration ≤ 2 ∧
    te_get_diatonic_value (te_add te0 te1 out).2 =
      te_get_diatonic_value te0 + te_get_diatonic_value te1 ∧
    te_get_chromatic_value (te_add te0 te1 out).2 =
      te_get_chromatic_value te0 + te_get_chromatic_value te1 := by
  have hadd : te_add te0 te1 out = te_from_dv_cv out
      (te_get_diatonic_value te0 + te_get_diatonic_value te1)
      (te_get_chromatic_value te0 + te_get_chromatic_value te1) := by
    simp [te_add, h0, h1]
  rw [hadd] at hs ⊢
  obtain ⟨hv, hd, hc⟩ := te_from_dv_cv_ok _ _ _ hs
  have halt := (validate_te_true _).mp hv
  exact ⟨hv, halt.2.2.1, halt.2.2.2, hd, hc⟩

/-- Witness for C1 at a concrete input: C plus G gives G. -/
theorem te_add_sound_witness :
    (validate_te ⟨0, 0, 0⟩ = true ∧ validate_te ⟨4, 0, 0⟩ = true ∧
      (te_add ⟨0, 0, 0⟩ ⟨4, 0, 0⟩ ⟨1, 1, 1⟩).1 = true) ∧
    (validate_te (te_add ⟨0, 0, 0⟩ ⟨4, 0, 0⟩ ⟨1, 1, 1⟩).2 = true ∧
      -2 ≤ (te_add ⟨0, 0, 0⟩ ⟨4, 0, 0⟩ ⟨1, 1, 1⟩).2.alteration ∧
      (te_add ⟨0, 0, 0⟩ ⟨4, 0, 0⟩ ⟨1, 1, 1⟩).2.alteration ≤ 2 ∧
      te_get_diatonic_value (te_add ⟨0, 0, 0⟩ ⟨4, 0, 0⟩ ⟨1, 1, 1⟩).2 =
        te_get_diatonic_value ⟨0, 0, 0⟩ + te_get_diatonic_value ⟨4, 0, 0⟩ ∧
      te_get_chromatic_value (te_add ⟨0, 0, 0⟩ ⟨4, 0, 0⟩ ⟨1, 1, 1⟩).2 =
        te_get_chromatic_value ⟨0, 0, 0⟩ + te_get_chromatic_value ⟨4, 0, 0⟩) :=
  ⟨⟨by decide, by decide, by decide⟩,
    te_add_sound ⟨0, 0, 0⟩ ⟨4, 0, 0⟩ ⟨1, 1, 1⟩ (by decide) (by decide)
      (by decide)⟩

/-- C8: adding the zero element on either side returns the element
unchanged, with success, for every valid element. -/
theorem te_add_zero_identity (e out out2 : tonal_element)
    (h : validate_te e = true) :
    te_add e ⟨0, 0, 0⟩ out = (true, e) ∧
    te_add ⟨0, 0, 0⟩ e out2 = (true, e) := by
  obtain ⟨hp0, hp6, ha0, ha2⟩ := (validate_te_true e).mp h
  have hz : validate_te ⟨0, 0, 0⟩ = true := by decide
  have hdz : te_get_diatonic_value ⟨0, 0, 0⟩ = 0 := by decide
  have hcz : te_get_chromatic_value ⟨0, 0, 0⟩ = 0 := by decide
  have hde := te_get_diatonic_value_eq e h
  have hce := te_get_chromatic_value_eq e h
  constructor
  · rw [show te_add e ⟨0, 0, 0⟩ out = te_from_dv_cv out
        (te_get_diatonic_value e + te_get_diatonic_value ⟨0, 0, 0⟩)
        (te_get_chromatic_value e + te_get_chromatic_value ⟨0, 0, 0⟩) from by
      simp [te_add, h, hz]]
    exact te_from_dv_cv_eval out _ _ e.diatonic_point e.alteration e.octave
      (by rw [hde, hdz]; ring) hp0 hp6 (by rw [hce, hcz]; ring) ha0 ha2
  · rw [show te_add ⟨0, 0, 0⟩ e out2 = te_from_dv_cv out2
        (te_get_diatonic_value ⟨0, 0, 0⟩ + te_get_diatonic_value e)
        (te_get_chromatic_value ⟨0, 0, 0⟩ + te_get_chromatic_value e) from by
      simp [te_add, h, hz]]
    exact te_from_dv_cv_eval out2 _ _ e.diatonic_point e.alteration e.octave
      (by rw [hde, hdz]; ring) hp0 hp6 (by rw [hce, hcz]; ring) ha0 ha2

/-- Witness for C8 at a concrete input. -/
theorem te_add_zero_identity_witness :
    validate_te ⟨6, -1, 5⟩ = true ∧
    (te_add ⟨6, -1, 5⟩ ⟨0, 0, 0⟩ ⟨1, 1, 1⟩ = (true, ⟨6, -1, 5⟩) ∧
      te_add ⟨0, 0, 0⟩ ⟨6, -1, 5⟩ ⟨2, 2, 2⟩ = (true, ⟨6, -1, 5⟩)) :=
  ⟨by decide, te_add_zero_identity ⟨6, -1, 5⟩ ⟨1, 1, 1⟩ ⟨2, 2, 2⟩ (by decide)⟩

/-- C3 (amended): whenever `te_inv` succeeds on a valid element, adding
the element and its inverse succeeds and yields the zero element. -/
theorem te_inv_add_cancel (e out : tonal_element) (h : validate_te e = true)
    (hinv : (te_inv e).1 = true) :
    te_add e (te_inv e).2 out = (true, ⟨0, 0, 0⟩) := by
  have hie : te_inv e = te_from_dv_cv e (-(te_get_diatonic_value e))
      (-(te_get_chromatic_value e)) := by
    simp [te_inv, h]
  rw [hie] at hinv ⊢
  obtain ⟨hv1, hd1, hc1⟩ := te_from_dv_cv_ok _ _ _ hinv
  rw [show te_add e (te_from_dv_cv e (-(te_get_diatonic_value e))
        (-(te_get_chromatic_value e))).2 out = te_from_dv_cv out
      (te_get_diatonic_value e + te_get_diatonic_value
        (te_from_dv_cv e (-(te_get_diatonic_value e))
          (-(te_get_chromatic_value e))).2)
      (te_get_chromatic_value e + te_get_chromatic_value
        (te_from_dv_cv e (-(te_get_diatonic_value e))
          (-(te_get_chromatic_value e))).2) from by
    simp [te_add, h, hv1]]
  have hm0 : dt_get_mpc_value 0 = 0 := by decide
  exact te_from_dv_cv_eval out _ _ 0 0 0
    (by rw [hd1]; ring) (by norm_num) (by norm_num)
    (by rw [hc1, hm0]; ring) (by norm_num) (by norm_num)

/-- Counterexample to C3 as stated: the valid element D double-sharp
has no representable inverse, so `te_inv` fails on it. -/
theorem te_inv_not_total :
    validate_te ⟨1, 2, 0⟩ = true ∧ (te_inv ⟨1, 2, 0⟩).1 = false := by decide

/-- Witness for C3 (amended) at a concrete input. -/
theorem te_inv_add_cancel_witness :
    validate_te ⟨2, -1, 0⟩ = true ∧ (te_inv ⟨2, -1, 0⟩).1 = true ∧
    te_add ⟨2, -1, 0⟩ (te_inv ⟨2, -1, 0⟩).2 ⟨5, 5, 5⟩ = (true, ⟨0, 0, 0⟩) :=
  ⟨by decide, by decide,
    te_inv_add_cancel ⟨2, -1, 0⟩ ⟨5, 5, 5⟩ (by decide) (by decide)⟩

/-- C2: `te_sub(te0, te1, te2)` actually computes `te0 + te_inv(te1)`,
i.e. `te0 - te1`, not the documented `te1 + te_inv(te0)`.  At C minus G
the code returns the inverted fifth `{3, 0, -1}` although the
documented order gives `{4, 0, 0}`. -/
theorem te_sub_computes_first_minus_second :
    te_sub ⟨0, 0, 0⟩ ⟨4, 0, 0⟩ ⟨1, 1, 1⟩ = (true, ⟨3, 0, -1⟩) ∧
    te_add ⟨4, 0, 0⟩ (te_inv ⟨0, 0, 0⟩).2 ⟨1, 1, 1⟩ = (true, ⟨4, 0, 0⟩) ∧
    ((⟨3, 0, -1⟩ : tonal_element) ≠ ⟨4, 0, 0⟩) := by decide

/-- C4 (amended): for two individually valid operands the reduced
chromatic value of the canonical reconstruction lies within {-4..15},
not {-2..13}. -/
theorem te_add_reduced_cv_bounds (te0 te1 : tonal_element)
    (h0 : validate_te te0 = true) (h1 : validate_te te1 = true) :
    -4 ≤ te_get_chromatic_value te0 + te_get_chromatic_value te1 -
        te_octave_of_dv
          (te_get_diatonic_value te0 + te_get_diatonic_value te1) * 12 ∧
      te_get_chromatic_value te0 + te_get_chromatic_value te1 -
        te_octave_of_dv
          (te_get_diatonic_value te0 + te_get_diatonic_value te1) * 12 ≤ 15 := by
  obtain ⟨p0, a0, w0⟩ := te0
  obtain ⟨p1, a1, w1⟩ := te1
  obtain ⟨hb0, hb1, hb2, hb3⟩ := (validate_te_true _).mp h0
  obtain ⟨hc0, hc1, hc2, hc3⟩ := (validate_te_true _).mp h1
  simp only [] at hb0 hb1 hb2 hb3 hc0 hc1 hc2 hc3
  rw [te_get_diatonic_value_eq _ h0, te_get_diatonic_value_eq _ h1,
    te_get_chromatic_value_eq _ h0, te_get_chromatic_value_eq _ h1,
    te_octave_of_dv_eq]
  simp only []
  have m0 : dt_get_mpc_value 0 = 0 := by decide
  have m1 : dt_get_mpc_value 1 = 2 := by decide
  have m2 : dt_get_mpc_value 2 = 4 := by decide
  have m3 : dt_get_mpc_value 3 = 5 := by decide
  have m4 : dt_get_mpc_value 4 = 7 := by decide
  have m5 : dt_get_mpc_value 5 = 9 := by decide
  have m6 : dt_get_mpc_value 6 = 11 := by decide
  interval_cases p0 <;> interval_cases p1 <;>
    simp only [m0, m1, m2, m3, m4, m5, m6] <;> omega

/-- Counterexample to C4 as stated: F double-sharp plus F double-sharp
is a pair of valid operands whose reduced chromatic value is 14, so the
chromatic-range failure branch fires, with the output still holding its
prior contents (the alteration check was never reached). -/
theorem te_add_chromatic_range_check_reachable :
    validate_te ⟨3, 2, 0⟩ = true ∧
    te_add ⟨3, 2, 0⟩ ⟨3, 2, 0⟩ ⟨1, 1, 1⟩ = (false, ⟨1, 1, 1⟩) ∧
    te_get_chromatic_value ⟨3, 2, 0⟩ + te_get_chromatic_value ⟨3, 2, 0⟩ -
      te_octave_of_dv
        (te_get_diatonic_value ⟨3, 2, 0⟩ + te_get_diatonic_value ⟨3, 2, 0⟩)
        * 12 = 14 := by decide

/-- Witness for C4 (amended) at a concrete input. -/
theorem te_add_reduced_cv_bounds_witness :
    validate_te ⟨3, 2, 0⟩ = true ∧
    (-4 ≤ te_get_chromatic_value ⟨3, 2, 0⟩ + te_get_chromatic_value ⟨3, 2, 0⟩ -
        te_octave_of_dv
          (te_get_diatonic_value ⟨3, 2, 0⟩ + te_get_diatonic_value ⟨3, 2, 0⟩)
          * 12 ∧
      te_get_chromatic_value ⟨3, 2, 0⟩ + te_get_chromatic_value ⟨3, 2, 0⟩ -
        te_octave_of_dv
          (te_get_diatonic_value ⟨3, 2, 0⟩ + te_get_diatonic_value ⟨3, 2, 0⟩)
          * 12 ≤ 15) :=
  ⟨by decide, te_add_reduced_cv_bounds ⟨3, 2, 0⟩ ⟨3, 2, 0⟩ (by decide)
    (by decide)⟩

/-- C9: a diminished prime at octave 0 is rejected by `ti_set` for both
directions, while the same class at octave 1 is accepted for both. -/
theorem ti_set_diminished_prime_octave_rule (ti0 : tonal_interval) :
    (ti_set ti0 DI_PRIME IA_DIMINISHED 0 ID_UP).1 = false ∧
    (ti_set ti0 DI_PRIME IA_DIMINISHED 0 ID_DOWN).1 = false ∧
    (ti_set ti0 DI_PRIME IA_DIMINISHED 1 ID_UP).1 = true ∧
    (ti_set ti0 DI_PRIME IA_DIMINISHED 1 ID_DOWN).1 = true :=
  ⟨rfl, rfl, rfl, rfl⟩

/-- C10: `validate_ti` succeeds on any interval whose octave,
direction, diatonic interval and alteration are individually in range
and which is not a diminished prime at octave 0 — the embedded
interval-class legality check is discarded, so illegal
(interval, alteration) pairs also pass. -/
theorem validate_ti_ignores_class_legality (ti : tonal_interval)
    (hoct : validate_interval_octave ti.octave = true)
    (hdir : validate_interval_direction ti.interval_direction = true)
    (_hdi : validate_diatonic_interval ti.diatonic_interval = true)
    (_hia : validate_interval_alteration ti.interval_alteration = true)
    (hnp : ¬(ti.octave = 0 ∧ ti.diatonic_interval = DI_PRIME ∧
      ti.interval_alteration = IA_DIMINISHED)) :
    validate_ti ti = true := by
  simp [validate_ti, hoct, hdir, hnp]

/-- Witness for C10: a Perfect Second is illegal as an interval class
yet passes `validate_ti`. -/
theorem validate_ti_ignores_class_legality_witness :
    validate_tic ⟨1, 3⟩ = false ∧ validate_ti ⟨1, 3, 0, 0⟩ = true :=
  ⟨by decide, validate_ti_ignores_class_legality ⟨1, 3, 0, 0⟩ (by decide)
    (by decide) (by decide) (by decide) (by decide)⟩

/-- C6: `te_to_tp` performs no octave sign check.  On the valid element
with octave -1 it reports success and writes a pitch that fails
`validate_tp` (the source merely asserts validity afterwards), and
`tp_add` of C0 and a downward octave accordingly reports success with
an invalid output pitch instead of a graceful failure. -/
theorem te_to_tp_accepts_negative_octave :
    validate_te ⟨0, 0, -1⟩ = true ∧
    te_to_tp ⟨0, 0, -1⟩ ⟨0, 0, 0⟩ = (true, ⟨0, 2, -1⟩) ∧
    validate_tp ⟨0, 2, -1⟩ = false ∧
    tp_add ⟨0, 2, 0⟩ ⟨0, 3, 1, 1⟩ ⟨0, 0, 0⟩ = (true, ⟨0, 2, -1⟩) := by decide

/-- On failure `te_from_dv_cv` leaves the output either untouched
(chromatic-range failure) or holding the provisional element written
before the alteration check. -/
theorem te_from_dv_cv_failure_output (prior : tonal_element) (dv cv : Int)
    (hf : (te_from_dv_cv prior dv cv).1 = false) :
    (te_from_dv_cv prior dv cv).2 = prior ∨
    (te_from_dv_cv prior dv cv).2 = ⟨dv - te_octave_of_dv dv * 7, 0, 0⟩ := by
  simp only [te_from_dv_cv] at hf ⊢
  split at hf
  · next h1 => rw [if_pos h1]; left; rfl
  · next h1 =>
    rw [if_neg h1]
    split at hf
    · next h2 => rw [if_pos h2]; right; rfl
    · simp at hf

/-- On failure `tc_to_tic` leaves the output either untouched or with
the `diatonic_interval` field already overwritten. -/
theorem tc_to_tic_failure_output (tc : tonal_class)
    (tic : tonal_interval_class) (hf : (tc_to_tic tc tic).1 = false) :
    (tc_to_tic tc tic).2 = tic ∨
    (tc_to_tic tc tic).2 =
      ⟨tc.diatonic_point + DI_PRIME, tic.interval_alteration⟩ := by
  simp only [tc_to_tic] at hf ⊢
  split_ifs at hf ⊢ <;> simp_all

/-- C7 (amended): a reported failure does not guarantee an untouched
output object.  For `te_add` (and through it `te_inv`, `te_sub`) a
failing call leaves the output either unchanged or holding the
provisional element `{reduced diatonic point, 0, 0}`; for `tc_to_tic`
(and through it `te_to_ti`) a failing call leaves the output either
unchanged or with its `diatonic_interval` field overwritten. -/
theorem failed_ops_leave_prior_or_partial_output :
    (∀ te0 te1 out : tonal_element, (te_add te0 te1 out).1 = false →
      (te_add te0 te1 out).2 = out ∨
      (te_add te0 te1 out).2 =
        ⟨te_get_diatonic_value te0 + te_get_diatonic_value te1 -
          te_octave_of_dv (te_get_diatonic_value te0 +
            te_get_diatonic_value te1) * 7, 0, 0⟩) ∧
    (∀ (tc : tonal_class) (tic : tonal_interval_class),
      (tc_to_tic tc tic).1 = false →
      (tc_to_tic tc tic).2 = tic ∨
      (tc_to_tic tc tic).2 =
        ⟨tc.diatonic_point + DI_PRIME, tic.interval_alteration⟩) := by
  constructor
  · intro te0 te1 out hf
    by_cases h0 : validate_te te0 = false
    · left; simp [te_add, h0]
    · by_cases h1 : validate_te te1 = false
      · left; simp [te_add, h0, h1]
      · have he : te_add te0 te1 out = te_from_dv_cv out
            (te_get_diatonic_value te0 + te_get_diatonic_value te1)
            (te_get_chromatic_value te0 + te_get_chromatic_value te1) := by
          simp [te_add, h0, h1]
        rw [he] at hf ⊢
        exact te_from_dv_cv_failure_output _ _ _ hf
  · intro tc tic hf
    exact tc_to_tic_failure_output tc tic hf

/-- Counterexample to C7 as stated: a failing `te_add` of two valid
double-sharp elements overwrites the output with the provisional
element `{4, 0, 0}`. -/
theorem te_add_failure_overwrites_output :
    validate_te ⟨2, 2, 0⟩ = true ∧
    te_add ⟨2, 2, 0⟩ ⟨2, 2, 0⟩ ⟨1, 1, 1⟩ = (false, ⟨4, 0, 0⟩) ∧
    ((⟨4, 0, 0⟩ : tonal_element) ≠ ⟨1, 1, 1⟩) := by decide

/-- Witness for C7 (amended) at concrete failing calls. -/
theorem failed_ops_leave_prior_or_partial_output_witness :
    ((te_add ⟨2, 2, 0⟩ ⟨2, 2, 0⟩ ⟨1, 1, 1⟩).2 = ⟨1, 1, 1⟩ ∨
      (te_add ⟨2, 2, 0⟩ ⟨2, 2, 0⟩ ⟨1, 1, 1⟩).2 =
        ⟨te_get_diatonic_value ⟨2, 2, 0⟩ + te_get_diatonic_value ⟨2, 2, 0⟩ -
          te_octave_of_dv (te_get_diatonic_value ⟨2, 2, 0⟩ +
            te_get_diatonic_value ⟨2, 2, 0⟩) * 7, 0, 0⟩) ∧
    ((tc_to_tic ⟨0, -2⟩ ⟨5, 5⟩).2 = ⟨5, 5⟩ ∨
      (tc_to_tic ⟨0, -2⟩ ⟨5, 5⟩).2 = ⟨0 + DI_PRIME, 5⟩) :=
  ⟨failed_ops_leave_prior_or_partial_output.1 ⟨2, 2, 0⟩ ⟨2, 2, 0⟩ ⟨1, 1, 1⟩
      (by decide),
    failed_ops_leave_prior_or_partial_output.2 ⟨0, -2⟩ ⟨5, 5⟩ (by decide)⟩

/-! ## Validator characterizations and inversion lemmas -/

/-- Pitch-class validity, spelled out. -/
theorem validate_tpc_true (tpc : tonal_pitch_class) :
    validate_tpc tpc = true ↔
      0 ≤ tpc.diatonic_pitch ∧ tpc.diatonic_pitch ≤ 6 ∧
      0 ≤ tpc.pitch_alteration ∧ tpc.pitch_alteration ≤ 4 := by
  simp [validate_tpc, validate_diatonic_pitch, validate_pitch_alteration,
    DP_C, DP_B, PA_bb, PA_ss, and_assoc]

/-- Pitch validity, spelled out. -/
theorem validate_tp_true (tp : tonal_pitch) :
    validate_tp tp = true ↔
      0 ≤ tp.octave ∧ 0 ≤ tp.diatonic_pitch ∧ tp.diatonic_pitch ≤ 6 ∧
      0 ≤ tp.pitch_alteration ∧ tp.pitch_alteration ≤ 4 := by
  unfold validate_tp
  split
  · next h => exact iff_of_false (by simp) (by omega)
  · next h =>
    rw [validate_tpc_true]
    simp only [tp_class]
    constructor
    · intro hx
      exact ⟨by omega, hx⟩
    · intro hx
      exact hx.2

/-- Interval-class validity, spelled out. -/
theorem validate_tic_true (tic : tonal_interval_class) :
    validate_tic tic = true ↔
      0 ≤ tic.diatonic_interval ∧ tic.diatonic_interval ≤ 6 ∧
      0 ≤ tic.interval_alteration ∧ tic.interval_alteration ≤ 4 ∧
      TIC_TO_TC_TABLE tic.diatonic_interval tic.interval_alteration ≠ 120 := by
  unfold validate_tic
  simp only [validate_diatonic_interval, validate_interval_alteration,
    DI_PRIME, DI_SEVENTH, IA_DIMINISHED, IA_AUGMENTED]
  split_ifs <;> simp_all

/-- Interval validity, spelled out: octave, direction and the
diminished-prime rule; the legality table is not part of it. -/
theorem validate_ti_true (ti : tonal_interval) :
    validate_ti ti = true ↔
      0 ≤ ti.octave ∧
      (ti.interval_direction = ID_UP ∨ ti.interval_direction = ID_DOWN) ∧
      ¬(ti.octave = 0 ∧ ti.diatonic_interval = DI_PRIME ∧
        ti.interval_alteration = IA_DIMINISHED) := by
  unfold validate_ti
  simp only [validate_interval_octave, validate_interval_direction]
  split_ifs <;> simp_all

/-- The legality table maps every legal pair to a degree in {-2..2}. -/
theorem tic_table_alteration_range (di ia : Int)
    (h : validate_tic ⟨di, ia⟩ = true) :
    -2 ≤ TIC_TO_TC_TABLE di ia ∧ TIC_TO_TC_TABLE di ia ≤ 2 := by
  obtain ⟨h0, h1, h2, h3, h4⟩ := (validate_tic_true _).mp h
  simp only [] at h0 h1 h2 h3 h4
  interval_cases di <;> interval_cases ia <;> simp_all [TIC_TO_TC_TABLE]

/-- `tc_to_tic` is a left inverse of the legality-table lookup: on the
class `{di, table(di, ia)}` of a legal pair it restores `{di, ia}`. -/
theorem tc_to_tic_table_inverse (di ia : Int)
    (h : validate_tic ⟨di, ia⟩ = true) (tic0 : tonal_interval_class) :
    tc_to_tic ⟨di, TIC_TO_TC_TABLE di ia⟩ tic0 = (true, ⟨di, ia⟩) := by
  obtain ⟨h0, h1, h2, h3, h4⟩ := (validate_tic_true _).mp h
  simp only [] at h0 h1 h2 h3 h4
  interval_cases di <;> interval_cases ia <;> first
    | rfl
    | simp_all [TIC_TO_TC_TABLE]

/-- `te_inv` on an element with diatonic point 0: negate alteration and
octave. -/
theorem te_inv_point_zero (a w : Int) (ha0 : -2 ≤ a) (ha2 : a ≤ 2) :
    te_inv ⟨0, a, w⟩ = (true, ⟨0, -a, -w⟩) := by
  have hv : validate_te ⟨0, a, w⟩ = true := by
    rw [validate_te_true]
    refine ⟨?_, ?_, ?_, ?_⟩ <;> simp only [] <;> omega
  have hm0 : dt_get_mpc_value 0 = 0 := by decide
  have hd := te_get_diatonic_value_eq _ hv
  have hc := te_get_chromatic_value_eq _ hv
  simp only [] at hd hc
  rw [show te_inv ⟨0, a, w⟩ = te_from_dv_cv ⟨0, a, w⟩
      (-(te_get_diatonic_value ⟨0, a, w⟩))
      (-(te_get_chromatic_value ⟨0, a, w⟩)) from by simp [te_inv, hv]]
  exact te_from_dv_cv_eval _ _ _ 0 (-a) (-w)
    (by rw [hd]; ring) (by norm_num) (by norm_num)
    (by rw [hc, hm0]; ring) (by omega) (by omega)

/-- `te_inv` on an element with diatonic point in {1..6}: the point
reflects to `7 - p` and the octave to `-w - 1`; the resulting
alteration must lie in {-2..2} for the inversion to succeed. -/
theorem te_inv_point_pos (p a w : Int) (hp1 : 1 ≤ p) (hp6 : p ≤ 6)
    (ha0 : -2 ≤ a) (ha2 : a ≤ 2)
    (hb0 : -2 ≤ 12 - dt_get_mpc_value p - dt_get_mpc_value (7 - p) - a)
    (hb2 : 12 - dt_get_mpc_value p - dt_get_mpc_value (7 - p) - a ≤ 2) :
    te_inv ⟨p, a, w⟩ =
      (true, ⟨7 - p, 12 - dt_get_mpc_value p - dt_get_mpc_value (7 - p) - a,
        -w - 1⟩) := by
  have hv : validate_te ⟨p, a, w⟩ = true := by
    rw [validate_te_true]
    refine ⟨?_, ?_, ?_, ?_⟩ <;> simp only [] <;> omega
  have hd := te_get_diatonic_value_eq _ hv
  have hc := te_get_chromatic_value_eq _ hv
  simp only [] at hd hc
  rw [show te_inv ⟨p, a, w⟩ = te_from_dv_cv ⟨p, a, w⟩
      (-(te_get_diatonic_value ⟨p, a, w⟩))
      (-(te_get_chromatic_value ⟨p, a, w⟩)) from by simp [te_inv, hv]]
  exact te_from_dv_cv_eval _ _ _ (7 - p)
    (12 - dt_get_mpc_value p - dt_get_mpc_value (7 - p) - a) (-w - 1)
    (by rw [hd]; ring) (by omega) (by omega)
    (by rw [hc]; ring) hb0 hb2

/-- For a legal pair with diatonic interval at least a second, the
alteration of the inverted class element stays in {-2..2}. -/
theorem tic_table_inv_range (di ia : Int) (h : validate_tic ⟨di, ia⟩ = true)
    (h1 : 1 ≤ di) :
    -2 ≤ 12 - dt_get_mpc_value di - dt_get_mpc_value (7 - di) -
        TIC_TO_TC_TABLE di ia ∧
      12 - dt_get_mpc_value di - dt_get_mpc_value (7 - di) -
        TIC_TO_TC_TABLE di ia ≤ 2 := by
  obtain ⟨h0, h6, hia0, hia4, htab⟩ := (validate_tic_true _).mp h
  simp only [] at h0 h6 hia0 hia4 htab
  interval_cases di <;> interval_cases ia <;> first
    | decide
    | exact absurd (by decide) htab

/-- Round trip for a tonal interval through the element representation,
except for direction-Down primes at octave 0. -/
theorem ti_round_trip (di ia oct dir : Int) (t0 : tonal_element)
    (ti0 : tonal_interval)
    (htic : validate_tic ⟨di, ia⟩ = true)
    (hti : validate_ti ⟨di, ia, oct, dir⟩ = true)
    (hex : ¬(dir = ID_DOWN ∧ di = DI_PRIME ∧ oct = 0)) :
    (ti_to_te ⟨di, ia, oct, dir⟩ t0).1 = true ∧
    te_to_ti (ti_to_te ⟨di, ia, oct, dir⟩ t0).2 ti0 =
      (true, ⟨di, ia, oct, dir⟩) := by
  obtain ⟨hoct, hdir, hnp⟩ := (validate_ti_true _).mp hti
  simp only [] at hoct hdir hnp
  obtain ⟨hdi0, hdi6, hia0, hia4, htab⟩ := (validate_tic_true _).mp htic
  simp only [] at hdi0 hdi6 hia0 hia4 htab
  have halt := tic_table_alteration_range di ia htic
  have htc : tic_to_tc ⟨di, ia⟩ (te_class t0) =
      (true, ⟨di, TIC_TO_TC_TABLE di ia⟩) := by
    simp [tic_to_tc, htic, DI_PRIME]
  have hinv_tc := tc_to_tic_table_inverse di ia htic (ti_class ti0)
  have hti2te : ti_to_te ⟨di, ia, oct, dir⟩ t0 =
      if dir = ID_DOWN then
        (true, (te_inv ⟨di, TIC_TO_TC_TABLE di ia, oct⟩).2)
      else (true, ⟨di, TIC_TO_TC_TABLE di ia, oct⟩) := by
    simp [ti_to_te, hti, ti_class, htc]
  have hvalte : validate_te ⟨di, TIC_TO_TC_TABLE di ia, oct⟩ = true := by
    rw [validate_te_true]
    refine ⟨?_, ?_, ?_, ?_⟩ <;> simp only [] <;> omega
  rcases hdir with hup | hdown
  · subst hup
    rw [hti2te, if_neg (by decide)]
    refine ⟨rfl, ?_⟩
    simp only []
    simp [te_to_ti, hvalte, hoct, te_class, hinv_tc]
  · subst hdown
    have hex2 : ¬(di = 0 ∧ oct = 0) := by
      intro hc
      exact hex ⟨rfl, by rw [DI_PRIME]; exact hc.1, hc.2⟩
    rw [hti2te, if_pos rfl]
    refine ⟨rfl, ?_⟩
    simp only []
    by_cases hdi : di = 0
    · subst hdi
      have hoct1 : 1 ≤ oct := by omega
      rw [te_inv_point_zero (TIC_TO_TC_TABLE 0 ia) oct halt.1 halt.2]
      simp only []
      have hv2 : validate_te ⟨0, -TIC_TO_TC_TABLE 0 ia, -oct⟩ = true := by
        rw [validate_te_true]
        refine ⟨?_, ?_, ?_, ?_⟩ <;> simp only [] <;> omega
      have hno : ¬ (0 ≤ -oct) := by omega
      have hinv2 : te_inv ⟨0, -TIC_TO_TC_TABLE 0 ia, -oct⟩ =
          (true, ⟨0, TIC_TO_TC_TABLE 0 ia, oct⟩) := by
        rw [te_inv_point_zero (-TIC_TO_TC_TABLE 0 ia) (-oct) (by omega)
          (by omega)]
        simp
      simp [te_to_ti, hv2, hno, hinv2, te_class, hinv_tc, ID_DOWN]
    · have hdi1 : 1 ≤ di := by omega
      have hA := tic_table_inv_range di ia htic hdi1
      rw [te_inv_point_pos di (TIC_TO_TC_TABLE di ia) oct hdi1 hdi6 halt.1
        halt.2 hA.1 hA.2]
      simp only []
      have h7 : (7 : Int) - (7 - di) = di := by ring
      have hmpc7 := dt_get_mpc_value_bounds (7 - di) (by omega) (by omega)
      have hv2 : validate_te ⟨7 - di,
          12 - dt_get_mpc_value di - dt_get_mpc_value (7 - di) -
            TIC_TO_TC_TABLE di ia, -oct - 1⟩ = true := by
        rw [validate_te_true]
        refine ⟨?_, ?_, ?_, ?_⟩ <;> simp only [] <;> omega
      have hno : ¬ (0 ≤ -oct - 1) := by omega
      have hinv2 := te_inv_point_pos (7 - di)
        (12 - dt_get_mpc_value di - dt_get_mpc_value (7 - di) -
          TIC_TO_TC_TABLE di ia) (-oct - 1) (by omega) (by omega) hA.1 hA.2
        (by rw [h7]; omega) (by rw [h7]; omega)
      rw [h7] at hinv2
      rw [show 12 - dt_get_mpc_value (7 - di) - dt_get_mpc_value di -
          (12 - dt_get_mpc_value di - dt_get_mpc_value (7 - di) -
            TIC_TO_TC_TABLE di ia) = TIC_TO_TC_TABLE di ia from by ring]
        at hinv2
      rw [show -(-oct - 1) - 1 = oct from by ring] at hinv2
      simp [te_to_ti, hv2, hno, hinv2, te_class, hinv_tc, ID_DOWN]

/-- C5 (amended): the four public representations round-trip through
the internal representation — pitch classes, pitches and interval
classes unconditionally, and intervals (valid including the
interval-class legality table) except a direction-Down interval of
diatonic span zero (a Prime at octave 0), whose round trip comes back
with direction Up instead. -/
theorem conversion_round_trips :
    (∀ (tpc : tonal_pitch_class) (tc0 : tonal_class)
      (tpc0 : tonal_pitch_class), validate_tpc tpc = true →
      (tpc_to_tc tpc tc0).1 = true ∧
      tc_to_tpc (tpc_to_tc tpc tc0).2 tpc0 = (true, tpc)) ∧
    (∀ (tp : tonal_pitch) (t0 : tonal_element) (tp0 : tonal_pitch),
      validate_tp tp = true →
      (tp_to_te tp t0).1 = true ∧
      te_to_tp (tp_to_te tp t0).2 tp0 = (true, tp)) ∧
    (∀ (tic : tonal_interval_class) (tc0 : tonal_class)
      (tic0 : tonal_interval_class), validate_tic tic = true →
      (tic_to_tc tic tc0).1 = true ∧
      tc_to_tic (tic_to_tc tic tc0).2 tic0 = (true, tic)) ∧
    (∀ (ti : tonal_interval) (t0 : tonal_element) (ti0 : tonal_interval),
      validate_tic (ti_class ti) = true → validate_ti ti = true →
      ¬(ti.interval_direction = ID_DOWN ∧ ti.diatonic_interval = DI_PRIME ∧
        ti.octave = 0) →
      (ti_to_te ti t0).1 = true ∧
      te_to_ti (ti_to_te ti t0).2 ti0 = (true, ti)) := by
  refine ⟨?_, ?_, ?_, ?_⟩
  · intro tpc tc0 tpc0 h
    obtain ⟨dp, pa⟩ := tpc
    obtain ⟨hb0, hb1, hb2, hb3⟩ := (validate_tpc_true _).mp h
    simp only [] at hb0 hb1 hb2 hb3
    have h1 : tpc_to_tc ⟨dp, pa⟩ tc0 = (true, ⟨dp, pa - 2⟩) := by
      simp [tpc_to_tc, h, DP_C, PA_]
    refine ⟨by rw [h1], ?_⟩
    rw [h1]
    simp only []
    have h2 : validate_tc ⟨dp, pa - 2⟩ = true := by
      simp [validate_tc, validate_diatonic_point, validate_alteration]
      omega
    simp [tc_to_tpc, h2, DP_C, PA_]
  · intro tp t0 tp0 h
    obtain ⟨dp, pa, oc⟩ := tp
    obtain ⟨hb0, hb1, hb2, hb3, hb4⟩ := (validate_tp_true _).mp h
    simp only [] at hb0 hb1 hb2 hb3 hb4
    have htpc : validate_tpc ⟨dp, pa⟩ = true := by
      rw [validate_tpc_true]
      refine ⟨?_, ?_, ?_, ?_⟩ <;> simp only [] <;> omega
    have h1 : tp_to_te ⟨dp, pa, oc⟩ t0 = (true, ⟨dp, pa - 2, oc⟩) := by
      simp [tp_to_te, h, tpc_to_tc, htpc, tp_class, te_class, DP_C, PA_]
    refine ⟨by rw [h1], ?_⟩
    rw [h1]
    simp only []
    have hte : validate_te ⟨dp, pa - 2, oc⟩ = true := by
      rw [validate_te_true]
      refine ⟨?_, ?_, ?_, ?_⟩ <;> simp only [] <;> omega
    have htc2 : validate_tc ⟨dp, pa - 2⟩ = true := hte
    simp [te_to_tp, hte, tc_to_tpc, htc2, te_class, tp_class, DP_C, PA_]
  · intro tic tc0 tic0 h
    obtain ⟨di, ia⟩ := tic
    have h1 : tic_to_tc ⟨di, ia⟩ tc0 =
        (true, ⟨di, TIC_TO_TC_TABLE di ia⟩) := by
      simp [tic_to_tc, h, DI_PRIME]
    refine ⟨by rw [h1], ?_⟩
    rw [h1]
    simp only []
    exact tc_to_tic_table_inverse di ia h tic0
  · intro ti t0 ti0 htic hti hex
    obtain ⟨di, ia, oct, dir⟩ := ti
    exact ti_round_trip di ia oct dir t0 ti0 htic hti hex

/-- Counterexample to C5 as stated: the valid interval Down Perfect
Prime at octave 0 round-trips to the Up Perfect Prime, not to itself. -/
theorem interval_round_trip_direction_flip :
    validate_ti ⟨0, 3, 0, 1⟩ = true ∧ validate_tic ⟨0, 3⟩ = true ∧
    (ti_to_te ⟨0, 3, 0, 1⟩ ⟨0, 0, 0⟩).1 = true ∧
    te_to_ti (ti_to_te ⟨0, 3, 0, 1⟩ ⟨0, 0, 0⟩).2 ⟨0, 0, 0, 0⟩ =
      (true, ⟨0, 3, 0, 0⟩) ∧
    ((⟨0, 3, 0, 0⟩ : tonal_interval) ≠ ⟨0, 3, 0, 1⟩) := by decide

/-- Witness for C5 (amended) at concrete inputs, one per conversion
family, with a Down diminished fifth for the interval case. -/
theorem conversion_round_trips_witness :
    ((tpc_to_tc ⟨4, 4⟩ ⟨0, 0⟩).1 = true ∧
      tc_to_tpc (tpc_to_tc ⟨4, 4⟩ ⟨0, 0⟩).2 ⟨0, 0⟩ = (true, ⟨4, 4⟩)) ∧
    ((tp_to_te ⟨4, 3, 4⟩ ⟨0, 0, 0⟩).1 = true ∧
      te_to_tp (tp_to_te ⟨4, 3, 4⟩ ⟨0, 0, 0⟩).2 ⟨0, 0, 0⟩ =
        (true, ⟨4, 3, 4⟩)) ∧
    ((tic_to_tc ⟨3, 4⟩ ⟨0, 0⟩).1 = true ∧
      tc_to_tic (tic_to_tc ⟨3, 4⟩ ⟨0, 0⟩).2 ⟨0, 0⟩ = (true, ⟨3, 4⟩)) ∧
    ((ti_to_te ⟨4, 0, 1, 1⟩ ⟨0, 0, 0⟩).1 = true ∧
      te_to_ti (ti_to_te ⟨4, 0, 1, 1⟩ ⟨0, 0, 0⟩).2 ⟨0, 0, 0, 0⟩ =
        (true, ⟨4, 0, 1, 1⟩)) :=
  ⟨conversion_round_trips.1 ⟨4, 4⟩ ⟨0, 0⟩ ⟨0, 0⟩ (by decide),
    conversion_round_trips.2.1 ⟨4, 3, 4⟩ ⟨0, 0, 0⟩ ⟨0, 0, 0⟩ (by decide),
    conversion_round_trips.2.2.1 ⟨3, 4⟩ ⟨0, 0⟩ ⟨0, 0⟩ (by decide),
    conversion_round_trips.2.2.2 ⟨4, 0, 1, 1⟩ ⟨0, 0, 0⟩ ⟨0, 0, 0, 0⟩
      (by decide) (by decide) (by decide)⟩
